import Mathlib

/-!
Shallow embedding of `src/bundler.ts` (class `PumpSwapBundler`) from the
pumpswap-bundler repository, together with proofs of the specification
claims about the bundle accumulator.

Modelling choices:
* Public keys and keypairs are abstracted as natural numbers, blockhashes
  as strings; the accumulator treats all of them opaquely.
* A `VersionedTransaction` carries a message (static account keys, recent
  blockhash, compiled instruction list) and a signature list, matching the
  fields the bundler reads or writes.
* Instructions are either one of the two compute-budget instructions the
  bundler builds (`setComputeUnitLimit` / `setComputeUnitPrice`) or an
  instruction built elsewhere, abstracted by a tag.
* The library call `new TransactionMessage({...}).compileToV0Message()` is
  modelled as building a message whose first static account key is the
  given payer, with the given blockhash and instruction list.
* The network collaborators of `sendBundle` — `connection.getLatestBlockhash`
  and the Jito `sendBundle` relay call — are passed in as parameters: the
  freshly fetched blockhash as a value, the relay as a function from the
  call's arguments to a result.  `PumpSwapBundler.sendBundle` returns the
  result, the post-call accumulator state, and the list of relay calls it
  made, so that claims about what the relay receives are statable.
-/

namespace PumpSwap

/-- A Solana public key, treated as an abstract identifier. -/
abbrev PublicKey := Nat

/-- A signing keypair, treated as an abstract identifier. -/
abbrev Keypair := Nat

/-- A recent blockhash, as returned by `connection.getLatestBlockhash()`. -/
abbrev Blockhash := String

/-- A transaction instruction.  The two compute-budget factory calls used by
the bundler each have a dedicated constructor; any instruction built outside
the bundler is abstracted by `generic` with an identifying tag. -/
inductive Instruction where
  | setComputeUnitLimit (units : Nat)
  | setComputeUnitPrice (microLamports : Nat)
  | generic (tag : Nat)
deriving DecidableEq, Repr, Inhabited

/-- Library factory `ComputeBudgetProgram.setComputeUnitLimit({units})`. -/
def ComputeBudgetProgram.setComputeUnitLimit (units : Nat) : Instruction :=
  Instruction.setComputeUnitLimit units

/-- Library factory `ComputeBudgetProgram.setComputeUnitPrice({microLamports})`. -/
def ComputeBudgetProgram.setComputeUnitPrice (microLamports : Nat) : Instruction :=
  Instruction.setComputeUnitPrice microLamports

/-- The message of a versioned transaction: the fields the bundler reads
(`staticAccountKeys`, `recentBlockhash`, `compiledInstructions`). -/
structure Message where
  staticAccountKeys : List PublicKey
  recentBlockhash : Blockhash
  compiledInstructions : List Instruction
deriving DecidableEq, Repr, Inhabited

/-- A versioned transaction: a message plus its signatures.  The bundler
reads and replaces `message` and never touches `signatures`. -/
structure VersionedTransaction where
  message : Message
  signatures : List Nat
deriving DecidableEq, Repr, Inhabited

/-- Library call `new TransactionMessage({payerKey, recentBlockhash,
instructions}).compileToV0Message()`: builds a message whose first static
account key is the payer (when one is given — `staticAccountKeys[0]` on an
empty key list is `undefined`, modelled by `Option`), with the given
blockhash, and with exactly the given instruction list in order. -/
def compileToV0Message (payerKey : Option PublicKey) (recentBlockhash : Blockhash)
    (instructions : List Instruction) : Message :=
  { staticAccountKeys := payerKey.toList
    recentBlockhash := recentBlockhash
    compiledInstructions := instructions }

/-- `interface BundleConfig` of `src/bundler.ts`.  `tipAmount` is a decimal
amount of SOL in the source; the accumulator never reads it, so its numeric
representation is immaterial and it is modelled as a natural number. -/
structure BundleConfig where
  maxTransactions : Nat
  tipAmount : Nat
  computeUnits : Nat
  computeUnitPrice : Nat
deriving DecidableEq, Repr

/-- The state of a `PumpSwapBundler` instance: the immutable configuration
and the mutable transaction buffer (`private transactions: VersionedTransaction[]`). -/
structure PumpSwapBundler where
  config : BundleConfig
  transactions : List VersionedTransaction
deriving DecidableEq, Repr

/-- The constructor `new PumpSwapBundler(config)`: empty buffer. -/
def PumpSwapBundler.init (config : BundleConfig) : PumpSwapBundler :=
  { config := config, transactions := [] }

/-- The errors thrown locally by the accumulator: `CapacityExceeded`
(thrown by `addTransaction` as `Bundle cannot exceed N transactions`) and
`EmptyBundle` (thrown by `sendBundle` as `No transactions to bundle`). -/
inductive BundlerError where
  | capacityExceeded (max : Nat)
  | emptyBundle
deriving DecidableEq, Repr

/-- `PumpSwapBundler.addTransaction`: throws when the buffer already holds
`maxTransactions` transactions, otherwise pushes the transaction at the tail. -/
def PumpSwapBundler.addTransaction (b : PumpSwapBundler)
    (transaction : VersionedTransaction) : Except BundlerError PumpSwapBundler :=
  if b.transactions.length ≥ b.config.maxTransactions then
    Except.error (BundlerError.capacityExceeded b.config.maxTransactions)
  else
    Except.ok { b with transactions := b.transactions ++ [transaction] }

/-- `PumpSwapBundler.addComputeBudgetInstructions`: builds the two
compute-budget instructions from the configuration, recompiles the message
with them prepended to the existing compiled instructions, keeping the
original payer (`staticAccountKeys[0]`) and recent blockhash, and replaces
the transaction's message. -/
def PumpSwapBundler.addComputeBudgetInstructions (config : BundleConfig)
    (transaction : VersionedTransaction) : VersionedTransaction :=
  let computeBudgetIx : List Instruction :=
    [ComputeBudgetProgram.setComputeUnitLimit config.computeUnits,
     ComputeBudgetProgram.setComputeUnitPrice config.computeUnitPrice]
  let messageV0 := compileToV0Message
    transaction.message.staticAccountKeys.head?
    transaction.message.recentBlockhash
    (computeBudgetIx ++ transaction.message.compiledInstructions)
  { transaction with message := messageV0 }

/-- The argument record of one call to the Jito relay function
`sendBundle(isSell, blockhash, tx, poolId, signer)` from `./jito/bundle`. -/
structure JitoCall where
  isSell : Bool
  blockhash : Blockhash
  tx : VersionedTransaction
  poolId : PublicKey
  signer : Keypair
deriving DecidableEq, Repr

/-- The Jito relay collaborator: given the call arguments it either returns
a uuid string or fails with an error (network error, relay rejection, ...),
carried here as a string. -/
abbrev JitoClient := JitoCall → Except String String

/-- The errors `PumpSwapBundler.sendBundle` can surface: its own
`EmptyBundle` check, or a failure propagated from the relay call. -/
inductive SendError where
  | emptyBundle
  | relay (e : String)
deriving DecidableEq, Repr

deriving instance DecidableEq for Except

/-- The `Bundle` object from `./jito/types` constructed (and never used
afterwards) inside `sendBundle`. -/
structure Bundle where
  transactions : List VersionedTransaction
  maxTransactions : Nat
deriving DecidableEq, Repr

/-- Everything observable about one `sendBundle` invocation: the returned
value or thrown error, the accumulator state afterwards, and the list of
relay calls made. -/
structure SendOutcome where
  result : Except SendError String
  state : PumpSwapBundler
  calls : List JitoCall
deriving DecidableEq, Repr

/-- `PumpSwapBundler.sendBundle(poolId, signer)`: throws `EmptyBundle` on an
empty buffer; otherwise mutates every buffered transaction in place with
`addComputeBudgetInstructions`, builds the (unused) `Bundle` value, and
calls the relay once, passing `isSell = false`, the freshly fetched
blockhash, the first buffered (now enriched) transaction, the pool id and
the signer.  On relay success the buffer is cleared and the uuid returned;
a relay failure propagates and leaves the buffer in its enriched state. -/
def PumpSwapBundler.sendBundle (b : PumpSwapBundler) (poolId : PublicKey)
    (signer : Keypair) (latestBlockhash : Blockhash) (jito : JitoClient) :
    SendOutcome :=
  match b.transactions with
  | [] =>
    { result := Except.error SendError.emptyBundle, state := b, calls := [] }
  | tx0 :: rest =>
    let enriched := (tx0 :: rest).map (addComputeBudgetInstructions b.config)
    let mutated : PumpSwapBundler := { b with transactions := enriched }
    let _bundle : Bundle :=
      { transactions := enriched, maxTransactions := b.config.maxTransactions }
    let call : JitoCall :=
      { isSell := false
        blockhash := latestBlockhash
        tx := addComputeBudgetInstructions b.config tx0
        poolId := poolId
        signer := signer }
    match jito call with
    | Except.error e =>
      { result := Except.error (SendError.relay e), state := mutated, calls := [call] }
    | Except.ok uuid =>
      { result := Except.ok uuid
        state := { mutated with transactions := [] }
        calls := [call] }

/-- `PumpSwapBundler.getSize`: the current buffer length. -/
def PumpSwapBundler.getSize (b : PumpSwapBundler) : Nat :=
  b.transactions.length

/-- `PumpSwapBundler.clear`: empties the buffer unconditionally. -/
def PumpSwapBundler.clear (b : PumpSwapBundler) : PumpSwapBundler :=
  { b with transactions := [] }

/-- One public operation on a bundler instance, for stating properties of
whole call sequences. -/
inductive Op where
  | addTransaction (tx : VersionedTransaction)
  | sendBundle (poolId : PublicKey) (signer : Keypair)
      (latestBlockhash : Blockhash) (jito : JitoClient)
  | getSize
  | clear

/-- The caller-visible result of one operation. -/
inductive OpResult where
  | unit
  | size (n : Nat)
  | uuid (u : String)
  | bundlerFailure (e : BundlerError)
  | sendFailure (e : SendError)
deriving DecidableEq, Repr

/-- Executing one operation: a thrown error leaves the state as the
operation left it (for `addTransaction` the check precedes any mutation,
so the state is unchanged; for `sendBundle` the enrichment precedes the
relay call). -/
def step (b : PumpSwapBundler) : Op → PumpSwapBundler × OpResult
  | Op.addTransaction tx =>
    match b.addTransaction tx with
    | Except.error e => (b, OpResult.bundlerFailure e)
    | Except.ok b2 => (b2, OpResult.unit)
  | Op.sendBundle poolId signer bh jito =>
    let o := b.sendBundle poolId signer bh jito
    match o.result with
    | Except.error e => (o.state, OpResult.sendFailure e)
    | Except.ok u => (o.state, OpResult.uuid u)
  | Op.getSize => (b, OpResult.size b.getSize)
  | Op.clear => (b.clear, OpResult.unit)

/-- Executing a sequence of operations from a state, collecting results. -/
def run (b : PumpSwapBundler) : List Op → PumpSwapBundler × List OpResult
  | [] => (b, [])
  | op :: ops =>
    let s := step b op
    let r := run s.1 ops
    (r.1, s.2 :: r.2)

/-- A state is reachable for a configuration when some operation sequence
starting from the freshly constructed instance produces it. -/
def Reachable (cfg : BundleConfig) (b : PumpSwapBundler) : Prop :=
  ∃ ops : List Op, (run (PumpSwapBundler.init cfg) ops).1 = b

/-- The instruction block that `n` enrichment passes prepend: `n` copies of
the compute-unit-limit / compute-unit-price pair. -/
def computeBudgetBlock (cfg : BundleConfig) (n : Nat) : List Instruction :=
  (List.replicate n
    [Instruction.setComputeUnitLimit cfg.computeUnits,
     Instruction.setComputeUnitPrice cfg.computeUnitPrice]).flatten

/-- One `sendBundle` attempt against a relay that always fails with `e`,
viewed as a state transformer (the returned error is discarded). -/
def failedSubmit (poolId : PublicKey) (signer : Keypair) (bh : Blockhash)
    (e : String) (b : PumpSwapBundler) : PumpSwapBundler :=
  (b.sendBundle poolId signer bh (fun _ => Except.error e)).state

/-- A concrete sample transaction for concrete evaluations. -/
def txA : VersionedTransaction :=
  { message :=
      { staticAccountKeys := [7, 8]
        recentBlockhash := "bh0"
        compiledInstructions := [Instruction.generic 0, Instruction.generic 1] }
    signatures := [100] }

/-- A second concrete sample transaction. -/
def txB : VersionedTransaction :=
  { message :=
      { staticAccountKeys := [9]
        recentBlockhash := "bh0"
        compiledInstructions := [Instruction.generic 2] }
    signatures := [101, 102] }

/-- The example configuration from `main` in `src/bundler.ts`. -/
def cfgA : BundleConfig :=
  { maxTransactions := 4, tipAmount := 1, computeUnits := 300000,
    computeUnitPrice := 696969 }

/-- A concrete capacity-one configuration. -/
def cfgB : BundleConfig :=
  { maxTransactions := 1, tipAmount := 2, computeUnits := 10,
    computeUnitPrice := 20 }

/-- A concrete bundler holding two transactions. -/
def bundlerA : PumpSwapBundler :=
  { config := cfgA, transactions := [txA, txB] }

/-- A concrete bundler at capacity for `cfgB`. -/
def bundlerFull : PumpSwapBundler :=
  { config := cfgB, transactions := [txA] }

/-- A relay double that always succeeds with a fixed uuid. -/
def jitoOk : JitoClient := fun _ => Except.ok "uuid-1"

/-- A relay double that always fails with a fixed network error. -/
def jitoFail : JitoClient := fun _ => Except.error "network"

/-- The example configuration with a different validator tip. -/
def cfgA2 : BundleConfig :=
  { maxTransactions := 4, tipAmount := 999, computeUnits := 300000,
    computeUnitPrice := 696969 }

/- ------------------------------------------------------------------ -/
/- Helper lemmas shared between the claim theorems.                    -/
/- ------------------------------------------------------------------ -/

/-- Enrichment prepends exactly the two compute-budget instructions. -/
theorem enrich_instructions (cfg : BundleConfig) (tx : VersionedTransaction) :
    (PumpSwapBundler.addComputeBudgetInstructions cfg tx).message.compiledInstructions =
      [Instruction.setComputeUnitLimit cfg.computeUnits,
       Instruction.setComputeUnitPrice cfg.computeUnitPrice]
        ++ tx.message.compiledInstructions := rfl

/-- Enrichment keeps the transaction's signatures untouched. -/
theorem enrich_signatures (cfg : BundleConfig) (tx : VersionedTransaction) :
    (PumpSwapBundler.addComputeBudgetInstructions cfg tx).signatures =
      tx.signatures := rfl

/-- Enrichment keeps the fee payer (`staticAccountKeys[0]`). -/
theorem enrich_payer (cfg : BundleConfig) (tx : VersionedTransaction) :
    (PumpSwapBundler.addComputeBudgetInstructions cfg tx).message.staticAccountKeys.head? =
      tx.message.staticAccountKeys.head? := by
  cases h : tx.message.staticAccountKeys.head? <;>
    simp [PumpSwapBundler.addComputeBudgetInstructions, compileToV0Message, h]

/-- Enrichment keeps the recent blockhash. -/
theorem enrich_blockhash (cfg : BundleConfig) (tx : VersionedTransaction) :
    (PumpSwapBundler.addComputeBudgetInstructions cfg tx).message.recentBlockhash =
      tx.message.recentBlockhash := rfl

/-- `sendBundle` on a nonempty buffer whose relay call fails: the error is
propagated, exactly one relay call was made, and the buffer keeps all its
transactions in enriched form. -/
theorem sendBundle_fail_state (b : PumpSwapBundler) (poolId : PublicKey)
    (signer : Keypair) (bh : Blockhash) (jito : JitoClient) (e : String)
    (h : b.transactions ≠ []) (hj : ∀ c, jito c = Except.error e) :
    b.sendBundle poolId signer bh jito =
      { result := Except.error (SendError.relay e)
        state := { b with transactions :=
          b.transactions.map (PumpSwapBundler.addComputeBudgetInstructions b.config) }
        calls := [{ isSell := false, blockhash := bh
                    tx := PumpSwapBundler.addComputeBudgetInstructions b.config
                      (b.transactions.headI)
                    poolId := poolId, signer := signer }] } := by
  match hb : b.transactions with
  | [] => exact absurd hb h
  | tx0 :: rest =>
    unfold PumpSwapBundler.sendBundle
    rw [hb]
    simp only [hj, List.headI]

/-- `sendBundle` on an empty buffer: the characteristic equation of the
`EmptyBundle` branch. -/
theorem sendBundle_nil (b : PumpSwapBundler) (poolId : PublicKey)
    (signer : Keypair) (bh : Blockhash) (jito : JitoClient)
    (h : b.transactions = []) :
    b.sendBundle poolId signer bh jito =
      { result := Except.error SendError.emptyBundle, state := b, calls := [] } := by
  unfold PumpSwapBundler.sendBundle
  rw [h]

/-- `sendBundle` on a nonempty buffer when the relay call returns an error:
the characteristic equation of the error branch. -/
theorem sendBundle_cons_error (b : PumpSwapBundler) (tx0 : VersionedTransaction)
    (rest : List VersionedTransaction) (poolId : PublicKey) (signer : Keypair)
    (bh : Blockhash) (jito : JitoClient) (e : String)
    (hb : b.transactions = tx0 :: rest)
    (hj : jito { isSell := false, blockhash := bh
                 tx := PumpSwapBundler.addComputeBudgetInstructions b.config tx0
                 poolId := poolId, signer := signer } = Except.error e) :
    b.sendBundle poolId signer bh jito =
      { result := Except.error (SendError.relay e)
        state := { b with transactions :=
          (tx0 :: rest).map (PumpSwapBundler.addComputeBudgetInstructions b.config) }
        calls := [{ isSell := false, blockhash := bh
                    tx := PumpSwapBundler.addComputeBudgetInstructions b.config tx0
                    poolId := poolId, signer := signer }] } := by
  unfold PumpSwapBundler.sendBundle
  rw [hb]
  simp only [hj]

/-- `sendBundle` on a nonempty buffer when the relay call succeeds:
the characteristic equation of the success branch. -/
theorem sendBundle_cons_ok (b : PumpSwapBundler) (tx0 : VersionedTransaction)
    (rest : List VersionedTransaction) (poolId : PublicKey) (signer : Keypair)
    (bh : Blockhash) (jito : JitoClient) (u : String)
    (hb : b.transactions = tx0 :: rest)
    (hj : jito { isSell := false, blockhash := bh
                 tx := PumpSwapBundler.addComputeBudgetInstructions b.config tx0
                 poolId := poolId, signer := signer } = Except.ok u) :
    b.sendBundle poolId signer bh jito =
      { result := Except.ok u
        state := { b with transactions := [] }
        calls := [{ isSell := false, blockhash := bh
                    tx := PumpSwapBundler.addComputeBudgetInstructions b.config tx0
                    poolId := poolId, signer := signer }] } := by
  unfold PumpSwapBundler.sendBundle
  rw [hb]
  simp only [hj]

/-- Claim C1: `sendBundle` on a non-empty buffer makes exactly one relay
call, passing only the first buffered transaction (after its in-place
enrichment), the pool id, the signer, the freshly fetched blockhash, and
`isSell = false`; no other buffered transaction reaches the relay. -/
theorem sendBundle_relays_only_first_tx (b : PumpSwapBundler) (poolId : PublicKey)
    (signer : Keypair) (bh : Blockhash) (jito : JitoClient)
    (h : b.transactions ≠ []) :
    ∃ tx0 rest, b.transactions = tx0 :: rest ∧
      (b.sendBundle poolId signer bh jito).calls =
        [{ isSell := false, blockhash := bh
           tx := PumpSwapBundler.addComputeBudgetInstructions b.config tx0
           poolId := poolId, signer := signer }] := by
  match hb : b.transactions with
  | [] => exact absurd hb h
  | tx0 :: rest =>
    refine ⟨tx0, rest, rfl, ?_⟩
    cases hj : jito
        { isSell := false, blockhash := bh,
          tx := PumpSwapBundler.addComputeBudgetInstructions b.config tx0,
          poolId := poolId, signer := signer } with
    | error e => rw [sendBundle_cons_error b tx0 rest poolId signer bh jito e hb hj]
    | ok u => rw [sendBundle_cons_ok b tx0 rest poolId signer bh jito u hb hj]

/-- Witness for C1 at a concrete two-transaction bundler. -/
theorem sendBundle_relays_only_first_tx_witness :
    bundlerA.transactions ≠ [] ∧
    ∃ tx0 rest, bundlerA.transactions = tx0 :: rest ∧
      (bundlerA.sendBundle 3 4 "bh1" jitoOk).calls =
        [{ isSell := false, blockhash := "bh1"
           tx := PumpSwapBundler.addComputeBudgetInstructions bundlerA.config tx0
           poolId := 3, signer := 4 }] :=
  ⟨by decide, sendBundle_relays_only_first_tx bundlerA 3 4 "bh1" jitoOk (by decide)⟩

/-- Claim C5: `sendBundle` on an empty buffer fails with `EmptyBundle`, with
no state change and no relay call. -/
theorem sendBundle_empty_fails (b : PumpSwapBundler) (poolId : PublicKey)
    (signer : Keypair) (bh : Blockhash) (jito : JitoClient)
    (h : b.transactions = []) :
    b.sendBundle poolId signer bh jito =
      { result := Except.error SendError.emptyBundle, state := b, calls := [] } := by
  unfold PumpSwapBundler.sendBundle
  rw [h]

/-- Witness for C5 at a freshly constructed bundler. -/
theorem sendBundle_empty_fails_witness :
    (PumpSwapBundler.init cfgA).transactions = [] ∧
    (PumpSwapBundler.init cfgA).sendBundle 3 4 "bh1" jitoOk =
      { result := Except.error SendError.emptyBundle
        state := PumpSwapBundler.init cfgA, calls := [] } :=
  ⟨rfl, sendBundle_empty_fails (PumpSwapBundler.init cfgA) 3 4 "bh1" jitoOk rfl⟩

/-- Claim C6: every successful `sendBundle` leaves the buffer empty
(`getSize = 0`) and returns exactly the uuid string the single relay call
returned. -/
theorem sendBundle_success_clears_buffer (b : PumpSwapBundler) (poolId : PublicKey)
    (signer : Keypair) (bh : Blockhash) (jito : JitoClient) (u : String)
    (h : (b.sendBundle poolId signer bh jito).result = Except.ok u) :
    (b.sendBundle poolId signer bh jito).state.getSize = 0 ∧
    ∃ call, (b.sendBundle poolId signer bh jito).calls = [call] ∧
      jito call = Except.ok u := by
  match hb : b.transactions with
  | [] =>
    rw [sendBundle_nil b poolId signer bh jito hb] at h
    exact absurd h (by simp)
  | tx0 :: rest =>
    cases hj : jito
        { isSell := false, blockhash := bh,
          tx := PumpSwapBundler.addComputeBudgetInstructions b.config tx0,
          poolId := poolId, signer := signer } with
    | error e =>
      rw [sendBundle_cons_error b tx0 rest poolId signer bh jito e hb hj] at h
      exact absurd h (by simp)
    | ok uuid =>
      have he := sendBundle_cons_ok b tx0 rest poolId signer bh jito uuid hb hj
      rw [he] at h
      have h2 : uuid = u := by simpa using h
      rw [he]
      exact ⟨rfl, _, rfl, h2 ▸ hj⟩

/-- Witness for C6 at a concrete bundler and an always-succeeding relay. -/
theorem sendBundle_success_clears_buffer_witness :
    (bundlerA.sendBundle 3 4 "bh1" jitoOk).result = Except.ok "uuid-1" ∧
    ((bundlerA.sendBundle 3 4 "bh1" jitoOk).state.getSize = 0 ∧
      ∃ call, (bundlerA.sendBundle 3 4 "bh1" jitoOk).calls = [call] ∧
        jitoOk call = Except.ok "uuid-1") :=
  ⟨by decide, sendBundle_success_clears_buffer bundlerA 3 4 "bh1" jitoOk "uuid-1" (by decide)⟩

/-- Counterexample to claim C2 as stated: with a concrete two-transaction
bundler and a relay that fails, the failed `sendBundle` does propagate the
failure, but the accumulator state afterwards differs from the state
before the call (the buffered transactions were already enriched). -/
theorem sendBundle_failure_not_stateless_cex :
    (bundlerA.sendBundle 3 4 "bh1" jitoFail).result =
      Except.error (SendError.relay "network") ∧
    (bundlerA.sendBundle 3 4 "bh1" jitoFail).state ≠ bundlerA ∧
    ¬ ((bundlerA.sendBundle 3 4 "bh1" jitoFail).state.transactions.map
        (fun tx => tx.message.compiledInstructions) =
       bundlerA.transactions.map (fun tx => tx.message.compiledInstructions)) := by
  decide

/-- Claim C2 (amended): a relay failure is propagated unmodified with no
retry (exactly one relay call is made), and the buffer length is unchanged;
however the buffered transactions are not restored — each one has already
been enriched with the two prepended compute-budget instructions. -/
theorem sendBundle_failure_propagates (b : PumpSwapBundler) (poolId : PublicKey)
    (signer : Keypair) (bh : Blockhash) (jito : JitoClient) (e : String)
    (h : b.transactions ≠ []) (hj : ∀ c, jito c = Except.error e) :
    (b.sendBundle poolId signer bh jito).result =
      Except.error (SendError.relay e) ∧
    (b.sendBundle poolId signer bh jito).calls.length = 1 ∧
    (b.sendBundle poolId signer bh jito).state.transactions =
      b.transactions.map (PumpSwapBundler.addComputeBudgetInstructions b.config) ∧
    (b.sendBundle poolId signer bh jito).state.getSize = b.getSize := by
  rw [sendBundle_fail_state b poolId signer bh jito e h hj]
  refine ⟨rfl, rfl, rfl, ?_⟩
  simp [PumpSwapBundler.getSize]

/-- Witness for the amended C2 at a concrete bundler and failing relay. -/
theorem sendBundle_failure_propagates_witness :
    bundlerA.transactions ≠ [] ∧ (∀ c, jitoFail c = Except.error "network") ∧
    ((bundlerA.sendBundle 3 4 "bh1" jitoFail).result =
        Except.error (SendError.relay "network") ∧
      (bundlerA.sendBundle 3 4 "bh1" jitoFail).calls.length = 1 ∧
      (bundlerA.sendBundle 3 4 "bh1" jitoFail).state.transactions =
        bundlerA.transactions.map
          (PumpSwapBundler.addComputeBudgetInstructions bundlerA.config) ∧
      (bundlerA.sendBundle 3 4 "bh1" jitoFail).state.getSize = bundlerA.getSize) :=
  ⟨by decide, fun _ => rfl,
    sendBundle_failure_propagates bundlerA 3 4 "bh1" jitoFail "network"
      (by decide) (fun _ => rfl)⟩

/-- Claim C4: enrichment prepends exactly the two compute-budget
instructions (limit from `computeUnits`, price from `computeUnitPrice`),
keeps the original instructions in order after them, and preserves the fee
payer and recent blockhash; during `sendBundle` on a non-empty buffer every
buffered transaction is enriched this way: the relay call carries the first
element of the enriched buffer, and the post-call buffer is either the full
enriched list (relay failure) or empty (relay success, buffer cleared). -/
theorem sendBundle_enriches_every_tx (cfg : BundleConfig) (tx : VersionedTransaction)
    (b : PumpSwapBundler) (poolId : PublicKey) (signer : Keypair)
    (bh : Blockhash) (jito : JitoClient) (h : b.transactions ≠ []) :
    (PumpSwapBundler.addComputeBudgetInstructions cfg tx).message.compiledInstructions =
      [Instruction.setComputeUnitLimit cfg.computeUnits,
       Instruction.setComputeUnitPrice cfg.computeUnitPrice]
        ++ tx.message.compiledInstructions ∧
    (PumpSwapBundler.addComputeBudgetInstructions cfg tx).message.staticAccountKeys.head? =
      tx.message.staticAccountKeys.head? ∧
    (PumpSwapBundler.addComputeBudgetInstructions cfg tx).message.recentBlockhash =
      tx.message.recentBlockhash ∧
    (b.sendBundle poolId signer bh jito).calls.map JitoCall.tx =
      (b.transactions.map (PumpSwapBundler.addComputeBudgetInstructions b.config)).take 1 ∧
    ((b.sendBundle poolId signer bh jito).state.transactions =
        b.transactions.map (PumpSwapBundler.addComputeBudgetInstructions b.config) ∨
      (b.sendBundle poolId signer bh jito).state.transactions = []) := by
  refine ⟨enrich_instructions cfg tx, enrich_payer cfg tx, enrich_blockhash cfg tx, ?_⟩
  match hb : b.transactions with
  | [] => exact absurd hb h
  | tx0 :: rest =>
    cases hj : jito
        { isSell := false, blockhash := bh,
          tx := PumpSwapBundler.addComputeBudgetInstructions b.config tx0,
          poolId := poolId, signer := signer } with
    | error e =>
      rw [sendBundle_cons_error b tx0 rest poolId signer bh jito e hb hj]
      exact ⟨by simp, Or.inl rfl⟩
    | ok uuid =>
      rw [sendBundle_cons_ok b tx0 rest poolId signer bh jito uuid hb hj]
      exact ⟨by simp, Or.inr rfl⟩

/-- Witness for C4 at a concrete configuration, transaction and bundler. -/
theorem sendBundle_enriches_every_tx_witness :
    bundlerA.transactions ≠ [] ∧
    ((PumpSwapBundler.addComputeBudgetInstructions cfgB txA).message.compiledInstructions =
      [Instruction.setComputeUnitLimit cfgB.computeUnits,
       Instruction.setComputeUnitPrice cfgB.computeUnitPrice]
        ++ txA.message.compiledInstructions ∧
    (PumpSwapBundler.addComputeBudgetInstructions cfgB txA).message.staticAccountKeys.head? =
      txA.message.staticAccountKeys.head? ∧
    (PumpSwapBundler.addComputeBudgetInstructions cfgB txA).message.recentBlockhash =
      txA.message.recentBlockhash ∧
    (bundlerA.sendBundle 3 4 "bh1" jitoFail).calls.map JitoCall.tx =
      (bundlerA.transactions.map
        (PumpSwapBundler.addComputeBudgetInstructions bundlerA.config)).take 1 ∧
    ((bundlerA.sendBundle 3 4 "bh1" jitoFail).state.transactions =
        bundlerA.transactions.map
          (PumpSwapBundler.addComputeBudgetInstructions bundlerA.config) ∨
      (bundlerA.sendBundle 3 4 "bh1" jitoFail).state.transactions = [])) :=
  ⟨by decide, sendBundle_enriches_every_tx cfgB txA bundlerA 3 4 "bh1" jitoFail (by decide)⟩

/-- One failed-relay `sendBundle` on a nonempty buffer: the state keeps every
transaction, enriched. -/
theorem failedSubmit_eq (poolId : PublicKey) (signer : Keypair) (bh : Blockhash)
    (e : String) (b : PumpSwapBundler) (h : b.transactions ≠ []) :
    failedSubmit poolId signer bh e b =
      { b with transactions :=
          b.transactions.map (PumpSwapBundler.addComputeBudgetInstructions b.config) } := by
  unfold failedSubmit
  rw [sendBundle_fail_state b poolId signer bh _ e h (fun _ => rfl)]

/-- Unfolding the per-iteration block of prepended instructions. -/
theorem computeBudgetBlock_succ (cfg : BundleConfig) (n : Nat) :
    computeBudgetBlock cfg (n + 1) =
      [Instruction.setComputeUnitLimit cfg.computeUnits,
       Instruction.setComputeUnitPrice cfg.computeUnitPrice]
        ++ computeBudgetBlock cfg n := by
  simp [computeBudgetBlock, List.replicate_succ]

/-- The block prepended by `n` iterations holds `2 * n` instructions. -/
theorem computeBudgetBlock_length (cfg : BundleConfig) (n : Nat) :
    (computeBudgetBlock cfg n).length = 2 * n := by
  induction n with
  | zero => simp [computeBudgetBlock]
  | succ n ih => rw [computeBudgetBlock_succ]; simp [ih]; omega

/-- Iterating failed submits keeps the configuration and stacks one block of
two compute-budget instructions per iteration in front of every buffered
transaction's instruction list. -/
theorem failedSubmit_iter (poolId : PublicKey) (signer : Keypair) (bh : Blockhash)
    (e : String) (n : Nat) (b : PumpSwapBundler) (h : b.transactions ≠ []) :
    ((failedSubmit poolId signer bh e)^[n] b).config = b.config ∧
    ((failedSubmit poolId signer bh e)^[n] b).transactions.map
        (fun tx => tx.message.compiledInstructions) =
      b.transactions.map (fun tx =>
        computeBudgetBlock b.config n ++ tx.message.compiledInstructions) := by
  induction n with
  | zero => simp [computeBudgetBlock]
  | succ n ih =>
    obtain ⟨hcfg, hmap⟩ := ih
    have hs : ((failedSubmit poolId signer bh e)^[n] b).transactions ≠ [] := by
      intro hnil
      rw [hnil] at hmap
      exact h (by simpa using hmap.symm)
    rw [Function.iterate_succ_apply',
      failedSubmit_eq poolId signer bh e _ hs]
    refine ⟨hcfg, ?_⟩
    have h2 := congrArg
      (List.map (fun l => [Instruction.setComputeUnitLimit b.config.computeUnits,
        Instruction.setComputeUnitPrice b.config.computeUnitPrice] ++ l)) hmap
    simp only [List.map_map, Function.comp] at h2
    simp only [List.map_map, Function.comp, enrich_instructions, hcfg,
      computeBudgetBlock_succ, List.append_assoc]
    simpa [List.append_assoc] using h2

/-- Claim C10: a relay failure leaves the buffer holding all its
transactions, each already enriched; submitting again enriches again, so
after `n` failed submit attempts every buffered transaction carries a
prepended block of `2 * n` compute-budget instructions in front of its
original instruction list — enrichment across repeated submits is not
idempotent. -/
theorem failed_submits_stack_enrichment (b : PumpSwapBundler) (poolId : PublicKey)
    (signer : Keypair) (bh : Blockhash) (e : String) (n : Nat)
    (h : b.transactions ≠ []) :
    (b.sendBundle poolId signer bh (fun _ => Except.error e)).result =
      Except.error (SendError.relay e) ∧
    (computeBudgetBlock b.config n).length = 2 * n ∧
    ((failedSubmit poolId signer bh e)^[n] b).transactions.length =
      b.transactions.length ∧
    ((failedSubmit poolId signer bh e)^[n] b).transactions.map
        (fun tx => tx.message.compiledInstructions) =
      b.transactions.map (fun tx =>
        computeBudgetBlock b.config n ++ tx.message.compiledInstructions) := by
  obtain ⟨hcfg, hmap⟩ := failedSubmit_iter poolId signer bh e n b h
  refine ⟨?_, computeBudgetBlock_length b.config n, ?_, hmap⟩
  · rw [sendBundle_fail_state b poolId signer bh _ e h (fun _ => rfl)]
  · have := congrArg List.length hmap
    simpa using this

/-- Witness for C10 at a concrete bundler with two failed attempts. -/
theorem failed_submits_stack_enrichment_witness :
    bundlerA.transactions ≠ [] ∧
    ((bundlerA.sendBundle 3 4 "bh1" (fun _ => Except.error "network")).result =
        Except.error (SendError.relay "network") ∧
      (computeBudgetBlock bundlerA.config 2).length = 2 * 2 ∧
      ((failedSubmit 3 4 "bh1" "network")^[2] bundlerA).transactions.length =
        bundlerA.transactions.length ∧
      ((failedSubmit 3 4 "bh1" "network")^[2] bundlerA).transactions.map
          (fun tx => tx.message.compiledInstructions) =
        bundlerA.transactions.map (fun tx =>
          computeBudgetBlock bundlerA.config 2 ++ tx.message.compiledInstructions)) :=
  ⟨by decide, failed_submits_stack_enrichment bundlerA 3 4 "bh1" "network" 2 (by decide)⟩

/-- `sendBundle` never changes the configuration. -/
theorem sendBundle_config (b : PumpSwapBundler) (poolId : PublicKey)
    (signer : Keypair) (bh : Blockhash) (jito : JitoClient) :
    (b.sendBundle poolId signer bh jito).state.config = b.config := by
  match hb : b.transactions with
  | [] => rw [sendBundle_nil b poolId signer bh jito hb]
  | tx0 :: rest =>
    cases hj : jito
        { isSell := false, blockhash := bh,
          tx := PumpSwapBundler.addComputeBudgetInstructions b.config tx0,
          poolId := poolId, signer := signer } with
    | error e => rw [sendBundle_cons_error b tx0 rest poolId signer bh jito e hb hj]
    | ok u => rw [sendBundle_cons_ok b tx0 rest poolId signer bh jito u hb hj]

/-- `sendBundle` never grows the buffer. -/
theorem sendBundle_length_le (b : PumpSwapBundler) (poolId : PublicKey)
    (signer : Keypair) (bh : Blockhash) (jito : JitoClient) :
    (b.sendBundle poolId signer bh jito).state.transactions.length ≤
      b.transactions.length := by
  match hb : b.transactions with
  | [] =>
    rw [sendBundle_nil b poolId signer bh jito hb]
    simp [hb]
  | tx0 :: rest =>
    cases hj : jito
        { isSell := false, blockhash := bh,
          tx := PumpSwapBundler.addComputeBudgetInstructions b.config tx0,
          poolId := poolId, signer := signer } with
    | error e =>
      rw [sendBundle_cons_error b tx0 rest poolId signer bh jito e hb hj]
      simp
    | ok u =>
      rw [sendBundle_cons_ok b tx0 rest poolId signer bh jito u hb hj]
      simp

/-- No operation changes the configuration. -/
theorem step_config (b : PumpSwapBundler) (op : Op) :
    (step b op).1.config = b.config := by
  cases op with
  | addTransaction tx =>
    simp only [step, PumpSwapBundler.addTransaction]
    by_cases hc : b.transactions.length ≥ b.config.maxTransactions
    · simp [hc]
    · simp [hc]
  | sendBundle poolId signer bh jito =>
    simp only [step]
    cases hr : (b.sendBundle poolId signer bh jito).result with
    | error e => simp only [hr]; exact sendBundle_config b poolId signer bh jito
    | ok u => simp only [hr]; exact sendBundle_config b poolId signer bh jito
  | getSize => rfl
  | clear => rfl

/-- Every operation preserves the capacity bound on the buffer length. -/
theorem step_length (b : PumpSwapBundler) (op : Op)
    (h : b.transactions.length ≤ b.config.maxTransactions) :
    (step b op).1.transactions.length ≤ b.config.maxTransactions := by
  cases op with
  | addTransaction tx =>
    simp only [step, PumpSwapBundler.addTransaction]
    by_cases hc : b.transactions.length ≥ b.config.maxTransactions
    · simpa [hc] using h
    · simp [hc]; omega
  | sendBundle poolId signer bh jito =>
    simp only [step]
    cases hr : (b.sendBundle poolId signer bh jito).result with
    | error e =>
      simp only [hr]
      exact le_trans (sendBundle_length_le b poolId signer bh jito) h
    | ok u =>
      simp only [hr]
      exact le_trans (sendBundle_length_le b poolId signer bh jito) h
  | getSize => exact h
  | clear => simp [step, PumpSwapBundler.clear]

/-- Running any operation sequence preserves the configuration and the
capacity bound. -/
theorem run_invariant (cfg : BundleConfig) (b : PumpSwapBundler) (ops : List Op)
    (hc : b.config = cfg) (hl : b.transactions.length ≤ cfg.maxTransactions) :
    (run b ops).1.config = cfg ∧
    (run b ops).1.transactions.length ≤ cfg.maxTransactions := by
  induction ops generalizing b with
  | nil => exact ⟨hc, hl⟩
  | cons op ops ih =>
    have h1 : b.transactions.length ≤ b.config.maxTransactions := by
      rw [hc]; exact hl
    have h2 := step_length b op h1
    rw [hc] at h2
    simp only [run]
    exact ih (step b op).1 (by rw [step_config b op, hc]) h2

/-- Every reachable state has the configuration it was constructed with and
respects the capacity bound. -/
theorem reachable_props (cfg : BundleConfig) (b : PumpSwapBundler)
    (h : Reachable cfg b) :
    b.config = cfg ∧ b.transactions.length ≤ cfg.maxTransactions := by
  obtain ⟨ops, hops⟩ := h
  have hinv := run_invariant cfg (PumpSwapBundler.init cfg) ops rfl
    (by simp [PumpSwapBundler.init])
  rw [hops] at hinv
  exact hinv

/-- Claim C3: in every reachable state the buffer length is at most the
configured capacity, and appending to a buffer whose length is at (or
above) capacity fails with `CapacityExceeded` before any mutation, leaving
the state — hence `getSize` — unchanged. -/
theorem buffer_never_exceeds_capacity (cfg : BundleConfig) (b : PumpSwapBundler)
    (h : Reachable cfg b) :
    b.getSize ≤ cfg.maxTransactions ∧
    ∀ tx, cfg.maxTransactions ≤ b.getSize →
      step b (Op.addTransaction tx) =
        (b, OpResult.bundlerFailure (BundlerError.capacityExceeded cfg.maxTransactions)) := by
  obtain ⟨hc, hl⟩ := reachable_props cfg b h
  refine ⟨hl, ?_⟩
  intro tx hge
  simp only [step, PumpSwapBundler.addTransaction, hc]
  have hcond : b.transactions.length ≥ cfg.maxTransactions := hge
  simp [hcond]

/-- Witness for C3 at a reachable capacity-one state holding one transaction. -/
theorem buffer_never_exceeds_capacity_witness :
    Reachable cfgB bundlerFull ∧
    (bundlerFull.getSize ≤ cfgB.maxTransactions ∧
      ∀ tx, cfgB.maxTransactions ≤ bundlerFull.getSize →
        step bundlerFull (Op.addTransaction tx) =
          (bundlerFull, OpResult.bundlerFailure
            (BundlerError.capacityExceeded cfgB.maxTransactions))) :=
  ⟨⟨[Op.addTransaction txA], by decide⟩,
    buffer_never_exceeds_capacity cfgB bundlerFull
      ⟨[Op.addTransaction txA], by decide⟩⟩

/-- Appending a list of transactions, one operation per transaction, while
capacity allows it: every append succeeds and the buffer grows by one per
append. -/
theorem run_append_count (cfg : BundleConfig) (b : PumpSwapBundler)
    (txs : List VersionedTransaction) (hc : b.config = cfg)
    (h : b.transactions.length + txs.length ≤ cfg.maxTransactions) :
    (run b (txs.map Op.addTransaction)).1.transactions.length =
      b.transactions.length + txs.length ∧
    (run b (txs.map Op.addTransaction)).2 = txs.map (fun _ => OpResult.unit) := by
  induction txs generalizing b with
  | nil => simp [run]
  | cons tx txs ih =>
    have hlt : ¬ (b.transactions.length ≥ b.config.maxTransactions) := by
      rw [hc]
      simp only [List.length_cons] at h
      omega
    have hstep : step b (Op.addTransaction tx) =
        ({ b with transactions := b.transactions ++ [tx] }, OpResult.unit) := by
      simp only [step, PumpSwapBundler.addTransaction]
      simp [hlt]
    simp only [List.map, run, hstep]
    obtain ⟨ih1, ih2⟩ := ih { b with transactions := b.transactions ++ [tx] } hc
      (by simp only [List.length_cons] at h; simp; omega)
    refine ⟨?_, ?_⟩
    · rw [ih1]; simp; omega
    · rw [ih2]

/-- Claim C7: starting from a fresh accumulator, any sequence of at most
`maxTransactions` appends succeeds, after which `getSize` returns exactly
the number of appends performed; and `getSize` itself leaves the state
unchanged. -/
theorem getSize_counts_appends (cfg : BundleConfig)
    (txs : List VersionedTransaction) (h : txs.length ≤ cfg.maxTransactions) :
    (run (PumpSwapBundler.init cfg) (txs.map Op.addTransaction)).1.getSize =
      txs.length ∧
    (run (PumpSwapBundler.init cfg) (txs.map Op.addTransaction)).2 =
      txs.map (fun _ => OpResult.unit) ∧
    ∀ b : PumpSwapBundler, step b Op.getSize = (b, OpResult.size b.getSize) := by
  obtain ⟨h1, h2⟩ := run_append_count cfg (PumpSwapBundler.init cfg) txs rfl
    (by simpa [PumpSwapBundler.init] using h)
  refine ⟨?_, h2, fun b => rfl⟩
  simpa [PumpSwapBundler.getSize, PumpSwapBundler.init] using h1

/-- Witness for C7 with two appends into a capacity-four accumulator. -/
theorem getSize_counts_appends_witness :
    [txA, txB].length ≤ cfgA.maxTransactions ∧
    ((run (PumpSwapBundler.init cfgA) ([txA, txB].map Op.addTransaction)).1.getSize =
        [txA, txB].length ∧
      (run (PumpSwapBundler.init cfgA) ([txA, txB].map Op.addTransaction)).2 =
        [txA, txB].map (fun _ => OpResult.unit) ∧
      ∀ b : PumpSwapBundler, step b Op.getSize = (b, OpResult.size b.getSize)) :=
  ⟨by decide, getSize_counts_appends cfgA [txA, txB] (by decide)⟩

/-- No single operation changes the signatures of a transaction that stays
in the buffer at the same position. -/
theorem step_signatures (b : PumpSwapBundler) (op : Op) (i : Nat)
    (h1 : i < (step b op).1.transactions.length)
    (h2 : i < b.transactions.length) :
    ((step b op).1.transactions.getD i default).signatures =
      ((b.transactions.getD i default)).signatures := by
  cases op with
  | addTransaction tx =>
    simp only [step, PumpSwapBundler.addTransaction]
    by_cases hc : b.transactions.length ≥ b.config.maxTransactions
    · simp [hc]
    · simp [hc]
      rw [List.getElem?_append_left h2]
  | sendBundle poolId signer bh jito =>
    match hb : b.transactions with
    | [] => rw [hb] at h2; simp at h2
    | tx0 :: rest =>
      rw [hb] at h2
      cases hj : jito
          { isSell := false, blockhash := bh,
            tx := PumpSwapBundler.addComputeBudgetInstructions b.config tx0,
            poolId := poolId, signer := signer } with
      | error e =>
        have hs := sendBundle_cons_error b tx0 rest poolId signer bh jito e hb hj
        simp only [step, hs]
        rw [List.getD_eq_getElem?_getD, List.getElem?_map]
        cases hv : (tx0 :: rest)[i]? with
        | none =>
          rw [List.getElem?_eq_none_iff] at hv
          omega
        | some v =>
          rw [List.getD_eq_getElem?_getD, hv]
          simp [enrich_signatures]
      | ok u =>
        have hs := sendBundle_cons_ok b tx0 rest poolId signer bh jito u hb hj
        simp only [step, hs] at h1
        simp at h1
  | getSize => rfl
  | clear =>
    simp only [step, PumpSwapBundler.clear] at h1
    simp at h1

/-- Claim C8: no accumulator operation ever modifies the signatures of any
buffered transaction — enrichment replaces only the message, and for every
operation a transaction still buffered at position `i` keeps the exact
signature list it had before the call. -/
theorem signatures_never_modified (b : PumpSwapBundler) (op : Op) (i : Nat)
    (h1 : i < (step b op).1.transactions.length)
    (h2 : i < b.transactions.length) :
    (∀ cfg tx,
      (PumpSwapBundler.addComputeBudgetInstructions cfg tx).signatures =
        tx.signatures) ∧
    ((step b op).1.transactions.getD i default).signatures =
      ((b.transactions.getD i default)).signatures :=
  ⟨enrich_signatures, step_signatures b op i h1 h2⟩

/-- Witness for C8: a failed submit on a concrete bundler keeps the first
buffered transaction's signatures. -/
theorem signatures_never_modified_witness :
    0 < (step bundlerA (Op.sendBundle 3 4 "bh1" jitoFail)).1.transactions.length ∧
    0 < bundlerA.transactions.length ∧
    ((∀ cfg tx,
      (PumpSwapBundler.addComputeBudgetInstructions cfg tx).signatures =
        tx.signatures) ∧
    ((step bundlerA (Op.sendBundle 3 4 "bh1" jitoFail)).1.transactions.getD 0
        default).signatures =
      ((bundlerA.transactions.getD 0 default)).signatures) :=
  ⟨by decide, by decide,
    signatures_never_modified bundlerA (Op.sendBundle 3 4 "bh1" jitoFail) 0
      (by decide) (by decide)⟩

/-- Enrichment only reads `computeUnits` and `computeUnitPrice` from the
configuration. -/
theorem enrich_congr (c1 c2 : BundleConfig)
    (hcu : c1.computeUnits = c2.computeUnits)
    (hcp : c1.computeUnitPrice = c2.computeUnitPrice)
    (tx : VersionedTransaction) :
    PumpSwapBundler.addComputeBudgetInstructions c1 tx =
      PumpSwapBundler.addComputeBudgetInstructions c2 tx := by
  simp [PumpSwapBundler.addComputeBudgetInstructions, hcu, hcp,
    ComputeBudgetProgram.setComputeUnitLimit,
    ComputeBudgetProgram.setComputeUnitPrice]

/-- One operation behaves identically on two states that agree on the
buffer and on every configuration field except `tipAmount`. -/
theorem step_tip_agnostic (s1 s2 : PumpSwapBundler)
    (hmax : s1.config.maxTransactions = s2.config.maxTransactions)
    (hcu : s1.config.computeUnits = s2.config.computeUnits)
    (hcp : s1.config.computeUnitPrice = s2.config.computeUnitPrice)
    (htx : s1.transactions = s2.transactions) (op : Op) :
    (step s1 op).2 = (step s2 op).2 ∧
    (step s1 op).1.transactions = (step s2 op).1.transactions := by
  cases op with
  | addTransaction tx =>
    simp only [step, PumpSwapBundler.addTransaction]
    by_cases hc : s1.transactions.length ≥ s1.config.maxTransactions
    · have hc2 : s2.transactions.length ≥ s2.config.maxTransactions := by
        rw [← htx, ← hmax]; exact hc
      simp [hc, hc2, hmax, htx]
    · have hc2 : ¬ (s2.transactions.length ≥ s2.config.maxTransactions) := by
        rw [← htx, ← hmax]; exact hc
      have hc3 : ¬ (s1.config.maxTransactions ≤ s2.transactions.length) := by
        rw [← htx]; exact hc
      simp [hc, hc2, hc3, htx]
  | sendBundle poolId signer bh jito =>
    match hb1 : s1.transactions with
    | [] =>
      have hb2 : s2.transactions = [] := htx ▸ hb1
      simp only [step, sendBundle_nil s1 poolId signer bh jito hb1,
        sendBundle_nil s2 poolId signer bh jito hb2]
      exact ⟨trivial, htx⟩
    | tx0 :: rest =>
      have hb2 : s2.transactions = tx0 :: rest := htx ▸ hb1
      have hcall : PumpSwapBundler.addComputeBudgetInstructions s1.config tx0 =
          PumpSwapBundler.addComputeBudgetInstructions s2.config tx0 :=
        enrich_congr s1.config s2.config hcu hcp tx0
      cases hj : jito
          { isSell := false, blockhash := bh,
            tx := PumpSwapBundler.addComputeBudgetInstructions s1.config tx0,
            poolId := poolId, signer := signer } with
      | error e =>
        have hj2 : jito
            { isSell := false, blockhash := bh,
              tx := PumpSwapBundler.addComputeBudgetInstructions s2.config tx0,
              poolId := poolId, signer := signer } = Except.error e := by
          rw [← hcall]; exact hj
        simp only [step, sendBundle_cons_error s1 tx0 rest poolId signer bh jito e hb1 hj,
          sendBundle_cons_error s2 tx0 rest poolId signer bh jito e hb2 hj2]
        refine ⟨trivial, ?_⟩
        exact List.map_congr_left (fun tx _ => enrich_congr s1.config s2.config hcu hcp tx)
      | ok u =>
        have hj2 : jito
            { isSell := false, blockhash := bh,
              tx := PumpSwapBundler.addComputeBudgetInstructions s2.config tx0,
              poolId := poolId, signer := signer } = Except.ok u := by
          rw [← hcall]; exact hj
        simp only [step, sendBundle_cons_ok s1 tx0 rest poolId signer bh jito u hb1 hj,
          sendBundle_cons_ok s2 tx0 rest poolId signer bh jito u hb2 hj2]
        exact ⟨trivial, trivial⟩
  | getSize =>
    simp only [step, PumpSwapBundler.getSize, htx]
    exact ⟨trivial, trivial⟩
  | clear =>
    simp only [step, PumpSwapBundler.clear]
    exact ⟨trivial, trivial⟩

/-- Whole operation sequences behave identically on two states that agree
on the buffer and on every configuration field except `tipAmount`. -/
theorem run_tip_agnostic (ops : List Op) (s1 s2 : PumpSwapBundler)
    (hmax : s1.config.maxTransactions = s2.config.maxTransactions)
    (hcu : s1.config.computeUnits = s2.config.computeUnits)
    (hcp : s1.config.computeUnitPrice = s2.config.computeUnitPrice)
    (htx : s1.transactions = s2.transactions) :
    (run s1 ops).2 = (run s2 ops).2 ∧
    (run s1 ops).1.transactions = (run s2 ops).1.transactions := by
  induction ops generalizing s1 s2 with
  | nil => exact ⟨rfl, htx⟩
  | cons op ops ih =>
    obtain ⟨hr, hs⟩ := step_tip_agnostic s1 s2 hmax hcu hcp htx op
    have c1 := step_config s1 op
    have c2 := step_config s2 op
    obtain ⟨ihr, ihs⟩ := ih (step s1 op).1 (step s2 op).1
      (by rw [c1, c2]; exact hmax) (by rw [c1, c2]; exact hcu)
      (by rw [c1, c2]; exact hcp) hs
    simp only [run]
    exact ⟨by rw [hr, ihr], ihs⟩

/-- Claim C9: two accumulators whose configurations differ only in
`tipAmount` produce identical results and identical buffers on every
operation sequence — no operation reads `tipAmount`. -/
theorem tipAmount_never_read (c1 c2 : BundleConfig)
    (hmax : c1.maxTransactions = c2.maxTransactions)
    (hcu : c1.computeUnits = c2.computeUnits)
    (hcp : c1.computeUnitPrice = c2.computeUnitPrice) (ops : List Op) :
    (run (PumpSwapBundler.init c1) ops).2 =
      (run (PumpSwapBundler.init c2) ops).2 ∧
    (run (PumpSwapBundler.init c1) ops).1.transactions =
      (run (PumpSwapBundler.init c2) ops).1.transactions :=
  run_tip_agnostic ops (PumpSwapBundler.init c1) (PumpSwapBundler.init c2)
    hmax hcu hcp rfl

/-- Witness for C9: `cfgA` and `cfgA2` differ only in `tipAmount`. -/
theorem tipAmount_never_read_witness :
    cfgA.maxTransactions = cfgA2.maxTransactions ∧
    cfgA.computeUnits = cfgA2.computeUnits ∧
    cfgA.computeUnitPrice = cfgA2.computeUnitPrice ∧
    ¬ cfgA.tipAmount = cfgA2.tipAmount ∧
    ((run (PumpSwapBundler.init cfgA) [Op.addTransaction txA, Op.getSize]).2 =
        (run (PumpSwapBundler.init cfgA2) [Op.addTransaction txA, Op.getSize]).2 ∧
      (run (PumpSwapBundler.init cfgA)
          [Op.addTransaction txA, Op.getSize]).1.transactions =
        (run (PumpSwapBundler.init cfgA2)
          [Op.addTransaction txA, Op.getSize]).1.transactions) :=
  ⟨rfl, rfl, rfl, by decide,
    tipAmount_never_read cfgA cfgA2 rfl rfl rfl
      [Op.addTransaction txA, Op.getSize]⟩

end PumpSwap
